import Mathlib

/-!
Verification of the in-memory service register (`package memory`).

The Go source keeps a nested map `domain → service name → version → *record`
guarded by a lock; we embed the maps as association lists (`List (String × α)`)
with Go-map lookup/insert/delete semantics, thread the store state explicitly,
and pass the current time as an explicit argument.  Events that the source
emits through `go m.sendEvent(...)` are collected into a result list in the
order the emissions are issued.
-/

namespace MemoryRegister

/-- Go map read: first binding of the key, if any. -/
def alookup (k : String) : List (String × α) → Option α
  | [] => none
  | (k', v) :: rest => if k' = k then some v else alookup k rest

/-- Go map write `m[k] = v`: replace the binding if present, else append. -/
def aset (k : String) (v : α) : List (String × α) → List (String × α)
  | [] => [(k, v)]
  | (k', v') :: rest => if k' = k then (k, v) :: rest else (k', v') :: aset k v rest

/-- Go map `delete(m, k)`: drop every binding of the key. -/
def aerase (k : String) (l : List (String × α)) : List (String × α) :=
  l.filter (fun p => p.1 ≠ k)

/-- `register.Value` (external package): a typed request/response placeholder.
The source only ever copies these by value, so the nested `Values` slice is
irrelevant to every claim and elided. -/
structure Value where
  name : String
  typ : String
deriving DecidableEq

/-- `register.Endpoint` (external package). -/
structure Endpoint where
  name : String
  request : Option Value
  response : Option Value
  metadata : List (String × String)
deriving DecidableEq

/-- `register.Node` (external package): one service instance. -/
structure Node where
  id : String
  address : String
  metadata : List (String × String)
deriving DecidableEq

/-- `register.Service` (external package).  `metadata` is an `Option` because
the source distinguishes a nil map (`s.Metadata == nil`) from an empty one. -/
structure Service where
  name : String
  version : String
  metadata : Option (List (String × String))
  endpoints : List Endpoint
  nodes : List Node
deriving DecidableEq

/-- The store's `node` struct: an embedded `*register.Node` plus liveness data.
`time.Duration` and `time.Time` become `Int` (nanoseconds). -/
structure NRec where
  node : Node
  ttl : Int
  lastSeen : Int
deriving DecidableEq

/-- The store's `record` struct: one (name, version) entry. -/
structure Record where
  name : String
  version : String
  metadata : List (String × String)
  nodes : List (String × NRec)
  endpoints : List Endpoint
deriving DecidableEq

/-- `map[string]*node` keyed by node id. -/
abbrev NodeMap := List (String × NRec)

/-- `map[string]*record` keyed by version. -/
abbrev VersionMap := List (String × Record)

/-- `services`: `map[string]map[string]*record` keyed by service name. -/
abbrev ServiceMap := List (String × VersionMap)

/-- `m.records`: keyed by domain. -/
abbrev Records := List (String × ServiceMap)

/-- `register.Result`: what `sendEvent` distributes and `Watcher.Next` returns. -/
structure Event where
  action : String
  service : Service
deriving DecidableEq

/-- The error values surfaced by the register core: `register.ErrNotFound`
plus an `other` constructor for any foreign error flowing through a fan-out. -/
inductive RegError
  | notFound
  | other (msg : String)
deriving DecidableEq

deriving instance DecidableEq for Except

/-- `register.WildcardDomain` (external package): the "all domains" sentinel. -/
def wildcardDomain : String := "*"

/-- `register.DefaultDomain` (external package): the fallback domain used by
`Watcher.Next` when an event's service metadata carries no domain. -/
def defaultDomain : String := "micro"

/-- `serviceToRecord`: copies the service-level metadata map, keys the request
nodes by id (each aliasing the request `*register.Node` and stamped with the
given TTL and the current time), and copies the endpoint slice. -/
def serviceToRecord (s : Service) (ttl : Int) (now : Int) : Record :=
  { name := s.name
    version := s.version
    metadata := s.metadata.getD []
    nodes := s.nodes.foldl (fun ns n => aset n.id { node := n, ttl := ttl, lastSeen := now } ns) []
    endpoints := s.endpoints }

/-- `new(register.Value)` then conditional `*request = *e.Request`: the result
is always non-nil — the zero value when the source pointer was nil. -/
def copyValue : Option Value → Option Value
  | none => some { name := "", typ := "" }
  | some v => some v

/-- `recordToService`: denormalizes a record back into a `register.Service`,
copying metadata and force-setting `metadata["domain"]` to the `domain`
argument, deep-copying endpoints, and flattening the node map. -/
def recordToService (r : Record) (domain : String) : Service :=
  { name := r.name
    version := r.version
    metadata := some (aset "domain" domain r.metadata)
    endpoints := r.endpoints.map (fun e =>
      { name := e.name
        request := copyValue e.request
        response := copyValue e.response
        metadata := e.metadata })
    nodes := r.nodes.map (fun p =>
      { id := p.2.node.id, address := p.2.node.address, metadata := p.2.node.metadata }) }

/-- The mutation both `Register` and `Deregister` apply to the caller's
service: allocate `s.Metadata` if nil and set `s.Metadata["domain"]`. -/
def setDomainMeta (s : Service) (dom : String) : Service :=
  { s with metadata := some (aset "domain" dom (s.metadata.getD [])) }

/-- The node value `Register` builds when adding a new node id to an existing
entry: copied metadata with `"domain"` force-set, the call's TTL, current time. -/
def mkNRec (n : Node) (dom : String) (ttl : Int) (now : Int) : NRec :=
  { node := { id := n.id, address := n.address, metadata := aset "domain" dom n.metadata }
    ttl := ttl
    lastSeen := now }

/-- One iteration of `Register`'s node loop: skip ids already present,
otherwise insert `mkNRec` and mark `addedNodes`. -/
def addStep (dom : String) (ttl now : Int) (st : NodeMap × Bool) (n : Node) : NodeMap × Bool :=
  if (alookup n.id st.1).isSome then st
  else (aset n.id (mkNRec n dom ttl now) st.1, true)

/-- `Register`'s pure-refresh branch: overwrite TTL and LastSeen of each listed
node.  (The branch only runs when every listed id is present; a missing id
would be a nil dereference in the source, modelled as a no-op.) -/
def refreshNodes (ttl now : Int) (ns : NodeMap) (l : List Node) : NodeMap :=
  l.foldl (fun acc n =>
    match alookup n.id acc with
    | some nr => aset n.id { nr with ttl := ttl, lastSeen := now } acc
    | none => acc) ns

/-- The value a store-mutating call returns: the new store, the (mutated)
caller service, the events handed to `sendEvent` in emission order, and the
Go error return (`nil` on every path of `Register` and `Deregister`). -/
structure OpResult where
  store : Records
  service : Service
  events : List Event
  err : Option RegError
deriving DecidableEq

/-- `memory.Register` with `options.Domain = dom`, `options.TTL = ttl`, and
the current time `now`: ensures the (domain, name, version) entry exists
(creating it from `serviceToRecord` and emitting a `create` event when
absent), then runs the node loop — new ids are inserted via `mkNRec`,
already-present ids are skipped — and finally either emits one `update`
event (some id was added) or refreshes every listed node (none was). -/
def register (m : Records) (s : Service) (dom : String) (ttl : Int) (now : Int) : OpResult :=
  let srvs0 := (alookup dom m).getD []
  let s' := setDomainMeta s dom
  let r := serviceToRecord s' ttl now
  let srvs1 := if (alookup s'.name srvs0).isNone then aset s'.name [] srvs0 else srvs0
  let vers0 := (alookup s'.name srvs1).getD []
  let isNew := (alookup s'.version vers0).isNone
  let srvs2 := if isNew then aset s'.name (aset s'.version r vers0) srvs1 else srvs1
  let evs0 : List Event := if isNew then [{ action := "create", service := s' }] else []
  let rec0 := (alookup s'.version ((alookup s'.name srvs2).getD [])).getD r
  let st := s'.nodes.foldl (addStep dom ttl now) (rec0.nodes, false)
  let nodes2 := if st.2 then st.1 else refreshNodes ttl now st.1 s'.nodes
  let srvs3 := aset s'.name (aset s'.version { rec0 with nodes := nodes2 } ((alookup s'.name srvs2).getD [])) srvs2
  { store := aset dom srvs3 m
    service := s'
    events := evs0 ++ (if st.2 then [{ action := "update", service := s' }] else [])
    err := none }

/-- `Deregister`'s node loop: delete each listed id from the version's map. -/
def deregNodes (l : List Node) (ns : NodeMap) : NodeMap :=
  l.foldl (fun acc n => aerase n.id acc) ns

/-- `memory.Deregister` with `options.Domain = dom`: sets the caller's
`Metadata["domain"]`, returns success untouched when the domain, name or
version is unknown; otherwise deletes the listed node ids and either keeps the
entry (`update` event), removes the whole service when this was its only
version (`delete` event), or removes just this version (`delete` event). -/
def deregister (m : Records) (s : Service) (dom : String) : OpResult :=
  let s' := setDomainMeta s dom
  match alookup dom m with
  | none => { store := m, service := s', events := [], err := none }
  | some svcs =>
    match alookup s'.name svcs with
    | none => { store := m, service := s', events := [], err := none }
    | some vers =>
      match alookup s'.version vers with
      | none => { store := m, service := s', events := [], err := none }
      | some ver =>
        let remaining := deregNodes s'.nodes ver.nodes
        if remaining.length > 0 then
          { store := aset dom (aset s'.name (aset s'.version { ver with nodes := remaining } vers) svcs) m
            service := s'
            events := [{ action := "update", service := s' }]
            err := none }
        else if vers.length = 1 then
          { store := aset dom (aerase s'.name svcs) m
            service := s'
            events := [{ action := "delete", service := s' }]
            err := none }
        else
          { store := aset dom (aset s'.name (aerase s'.version vers) svcs) m
            service := s'
            events := [{ action := "delete", service := s' }]
            err := none }

/-- `LookupService` on a concrete (non-wildcard) domain. -/
def lookupServiceIn (m : Records) (name : String) (dom : String) : Except RegError (List Service) :=
  match alookup dom m with
  | none => .error .notFound
  | some svcs =>
    match alookup name svcs with
    | none => .error .notFound
    | some vers =>
      if vers.length = 0 then .error .notFound
      else .ok (vers.map (fun p => recordToService p.2 dom))

/-- The wildcard fan-out loop of `LookupService`: per-domain `ErrNotFound` is
skipped, any other error aborts and propagates, successes are concatenated. -/
def wildcardLoop (f : String → Except RegError (List Service)) :
    List String → List Service → Except RegError (List Service)
  | [], acc => .ok acc
  | d :: rest, acc =>
    match f d with
    | .error .notFound => wildcardLoop f rest acc
    | .error e => .error e
    | .ok srvs => wildcardLoop f rest (acc ++ srvs)

/-- `memory.LookupService`.  The wildcard branch iterates the domain keys and
recurses with each concrete domain; since a recursive call with a concrete
domain takes the non-wildcard branch, it is `lookupServiceIn` — faithful
whenever no stored domain key is itself the wildcard sentinel (a store with a
literal `"*"` domain would make the source recurse into the wildcard branch
again and never terminate, which has no total counterpart). -/
def lookupService (m : Records) (name : String) (dom : String) : Except RegError (List Service) :=
  if dom = wildcardDomain then
    match wildcardLoop (fun d => lookupServiceIn m name d) (m.map Prod.fst) [] with
    | .error e => .error e
    | .ok srvs => if srvs.length = 0 then .error .notFound else .ok srvs
  else lookupServiceIn m name dom

/-- `ListServices` on a concrete (non-wildcard) domain.  The source iterates
the domain's services map with the key bound to a variable named `domain`, but
the key of that map is the service name — so the service name, not the queried
domain, is what reaches `recordToService`. -/
def listServicesIn (m : Records) (dom : String) : List Service :=
  match alookup dom m with
  | none => []
  | some svcs =>
    svcs.foldl (fun acc p => acc ++ p.2.map (fun q => recordToService q.2 p.1)) []

/-- The wildcard fan-out loop of `ListServices`: any per-domain error aborts
and propagates, successes are concatenated. -/
def listLoop (f : String → Except RegError (List Service)) :
    List String → List Service → Except RegError (List Service)
  | [], acc => .ok acc
  | d :: rest, acc =>
    match f d with
    | .error e => .error e
    | .ok srvs => listLoop f rest (acc ++ srvs)

/-- `memory.ListServices`; same wildcard-recursion note as `lookupService`. -/
def listServices (m : Records) (dom : String) : Except RegError (List Service) :=
  if dom = wildcardDomain then
    listLoop (fun d => .ok (listServicesIn m d)) (m.map Prod.fst) []
  else .ok (listServicesIn m dom)

/-- `ttlPrune`'s expiry test: `n.TTL != 0 && time.Since(n.LastSeen) > n.TTL`. -/
def nodeExpired (now : Int) (nr : NRec) : Bool :=
  nr.ttl ≠ 0 && now - nr.lastSeen > nr.ttl

/-- One record after a reaper tick: expired nodes deleted, nothing else. -/
def pruneRecord (now : Int) (r : Record) : Record :=
  { r with nodes := r.nodes.filter (fun p => ¬ nodeExpired now p.2) }

/-- One tick of `ttlPrune`: walk every domain → service → version → node and
delete the expired nodes.  The loop body contains no `sendEvent` call and
deletes only node-map entries, so the second component (emitted events) is
empty and the domain/service/version structure is untouched. -/
def ttlPruneTick (now : Int) (m : Records) : Records × List Event :=
  (m.map (fun d => (d.1, d.2.map (fun sv => (sv.1, sv.2.map (fun v => (v.1, pruneRecord now v.2)))))), [])

/-- Walk the `domain → name → version` chain of the store. -/
def lookupRecord (m : Records) (dom name ver : String) : Option Record :=
  (alookup dom m).bind (fun svcs => (alookup name svcs).bind (fun vers => alookup ver vers))

/-- `register.WatchOptions` (external package). -/
structure WatchOptions where
  service : String
  domain : String
deriving DecidableEq

/-- The `Watcher` struct, with the closed/open state of its `exit` channel as
a boolean (`stopped`).  The `res` channel and the id are modelled at the call
sites of `next`. -/
structure WatcherState where
  wo : WatchOptions
  stopped : Bool
deriving DecidableEq

/-- A `*register.Result` as received on the watcher channel: the service
payload may be nil. -/
structure WResult where
  action : String
  service : Option Service
deriving DecidableEq

/-- `Next`'s domain extraction: the service metadata's `"domain"` entry when
the map is non-nil and the entry non-empty, else `register.DefaultDomain`. -/
def eventDomain (s : Service) : String :=
  match s.metadata with
  | some md =>
    match alookup "domain" md with
    | some d => if d.length > 0 then d else defaultDomain
    | none => defaultDomain
  | none => defaultDomain

/-- `Next`'s filter: skip nil services, skip mismatching service names when the
filter is non-empty, then deliver iff the domain filter is the wildcard or
matches the event's domain. -/
def matchesWatch (wo : WatchOptions) (r : WResult) : Bool :=
  match r.service with
  | none => false
  | some s =>
    if wo.service.length > 0 && wo.service ≠ s.name then false
    else wo.domain = wildcardDomain || wo.domain = eventDomain s

/-- What a `Next` call does: return a result, fail stopped, or block. -/
inductive NextOutcome
  | found (r : WResult)
  | stoppedErr
  | blocked
deriving DecidableEq

/-- `Watcher.Next` over the sequence of results available on the `res`
channel, in arrival order: the loop discards filtered-out results and returns
the first match; once the channel is quiet, the `<-m.exit` arm fires when the
watcher is stopped (returning the "watcher stopped" error), else the call
stays blocked in the select. -/
def next (w : WatcherState) : List WResult → NextOutcome
  | [] => if w.stopped then .stoppedErr else .blocked
  | r :: rest => if matchesWatch w.wo r then .found r else next w rest

/-- `Watcher.Stop`: the select returns immediately when `exit` is already
closed, else closes it. -/
def stop (w : WatcherState) : WatcherState :=
  if w.stopped then w else { w with stopped := true }

/-- Per-domain successes of `f` flattened in domain order (a failed domain
contributes nothing). -/
def gatherOk (f : String → Except RegError (List Service)) : List String → List Service
  | [] => []
  | d :: rest => (match f d with | .ok l => l | .error _ => []) ++ gatherOk f rest

/-- What the wildcard fan-out of `LookupService` gathers when no per-domain
call fails hard: the non-empty per-domain results concatenated in domain
order. -/
def gatherLookup (m : Records) (name : String) : List Service :=
  gatherOk (fun d => lookupServiceIn m name d) (m.map Prod.fst)

/-! Concrete sample data used by the evaluation, counterexample and witness
theorems below. -/

/-- A stored node whose metadata has no `"domain"` entry. -/
def sampleNRec : NRec :=
  { node := { id := "n1", address := "h:1", metadata := [("k", "v")] }, ttl := 5, lastSeen := 10 }

/-- A record for service `svcA` version `1` with one node. -/
def c1rec : Record :=
  { name := "svcA", version := "1", metadata := [], nodes := [("n1", sampleNRec)], endpoints := [] }

/-- A store whose domain `dom1` holds `svcA` version `1`. -/
def c1store : Records := [("dom1", [("svcA", [("1", c1rec)])])]

/-- A registration request carrying one node with domain-free metadata. -/
def c2svc : Service :=
  { name := "svc", version := "1", metadata := none, endpoints := [],
    nodes := [{ id := "n1", address := "h:1", metadata := [("k", "v")] }] }

/-- A store with an existing `d1`/`svc`/`1` entry holding node `n0`. -/
def c2rec : Record :=
  { name := "svc", version := "1", metadata := [("domain", "d1")],
    nodes := [("n0", { node := { id := "n0", address := "h:0", metadata := [("domain", "d1")] }, ttl := 3, lastSeen := 7 })],
    endpoints := [] }

/-- Store used by the C2 witness. -/
def c2m : Records := [("d1", [("svc", [("1", c2rec)])])]

/-- The node record already stored for id `a` before the mixed-batch call. -/
def c3old : NRec :=
  { node := { id := "a", address := "h:a", metadata := [("domain", "d1")] }, ttl := 5, lastSeen := 10 }

/-- An existing `d1`/`svc`/`1` entry holding only node `a`. -/
def c3rec : Record :=
  { name := "svc", version := "1", metadata := [("domain", "d1")], nodes := [("a", c3old)], endpoints := [] }

/-- Store used by the C3 counterexample and witness. -/
def c3m : Records := [("d1", [("svc", [("1", c3rec)])])]

/-- A mixed batch: node `a` already registered, node `b` new. -/
def c3svc : Service :=
  { name := "svc", version := "1", metadata := none, endpoints := [],
    nodes := [{ id := "a", address := "h:a", metadata := [] },
              { id := "b", address := "h:b", metadata := [] }] }

/-- A pure-refresh batch naming only the already-present node `a`. -/
def c3svcRefresh : Service :=
  { name := "svc", version := "1", metadata := none, endpoints := [],
    nodes := [{ id := "a", address := "h:a", metadata := [] }] }

/-- Brand-new registration request used by the C4 counterexample. -/
def c4svc : Service :=
  { name := "svc", version := "1", metadata := none, endpoints := [],
    nodes := [{ id := "n1", address := "h:1", metadata := [] }] }

/-- An entry with two nodes, so deregistering one leaves the entry alive. -/
def c5rec : Record :=
  { name := "svc", version := "1", metadata := [("domain", "d1")],
    nodes := [("a", c3old), ("b", { node := { id := "b", address := "h:b", metadata := [] }, ttl := 0, lastSeen := 0 })],
    endpoints := [] }

/-- Store used by the C5 witness. -/
def c5m : Records := [("d1", [("svc", [("1", c5rec)])])]

/-- A deregistration naming only node `a`. -/
def c5svc : Service :=
  { name := "svc", version := "1", metadata := none, endpoints := [],
    nodes := [{ id := "a", address := "h:a", metadata := [] }] }

/-- Store used by the C6 witness: it knows `d1`/`svc`/`1` and nothing else. -/
def c6m : Records := c3m

/-- A request naming a version that is absent from `c6m`. -/
def c6svcBadVersion : Service :=
  { name := "svc", version := "2", metadata := none, endpoints := [],
    nodes := [{ id := "a", address := "h:a", metadata := [] }] }

/-- A request naming a service that is absent from `c6m`. -/
def c6svcBadName : Service :=
  { name := "other", version := "1", metadata := none, endpoints := [],
    nodes := [{ id := "a", address := "h:a", metadata := [] }] }

/-- Store used by the C8 witness: `svc` lives in `d1`; `d2` has no `svc`. -/
def c8m : Records :=
  [("d1", [("svc", [("1", c1rec)])]),
   ("d2", [("zzz", [("1", { c1rec with name := "zzz" })])])]

/-- A per-domain lookup that fails with a non-NotFound error. -/
def c8boom : String → Except RegError (List Service) :=
  fun _ => .error (.other "boom")

/-- A per-domain lookup that fails with NotFound. -/
def c8miss : String → Except RegError (List Service) :=
  fun _ => .error .notFound

/-! Association-list lemmas. -/

@[simp]
theorem alookup_aset_self (k : String) (v : α) (l : List (String × α)) :
    alookup k (aset k v l) = some v := by
  induction l with
  | nil => simp [aset, alookup]
  | cons p rest ih =>
    by_cases h : p.1 = k
    · simp [aset, h, alookup]
    · simp [aset, h, alookup, ih]

theorem alookup_aset_ne {k' k : String} (h : k' ≠ k) (v : α) (l : List (String × α)) :
    alookup k (aset k' v l) = alookup k l := by
  induction l with
  | nil => simp [aset, alookup, h]
  | cons p rest ih =>
    by_cases hp : p.1 = k'
    · simp [aset, hp, alookup, h]
    · simp only [aset, hp, if_false, alookup]
      by_cases hk : p.1 = k
      · simp [hk]
      · simp [hk, ih]

@[simp]
theorem alookup_aerase_self (k : String) (l : List (String × α)) :
    alookup k (aerase k l) = none := by
  induction l with
  | nil => simp [aerase, alookup]
  | cons p rest ih =>
    by_cases h : p.1 = k
    · simpa [aerase, h] using ih
    · simpa [aerase, h, alookup] using ih

theorem alookup_aerase_ne {k' k : String} (h : k' ≠ k) (l : List (String × α)) :
    alookup k (aerase k' l) = alookup k l := by
  induction l with
  | nil => simp [aerase]
  | cons p rest ih =>
    by_cases hp : p.1 = k'
    · have hpk : p.1 ≠ k := by rw [hp]; exact h
      have h1 : aerase k' (p :: rest) = aerase k' rest := by
        simp [aerase, List.filter_cons, hp]
      rw [h1, ih]
      simp [alookup, hpk]
    · have h1 : aerase k' (p :: rest) = p :: aerase k' rest := by
        simp [aerase, List.filter_cons, hp]
      rw [h1]
      by_cases hk : p.1 = k
      · simp [alookup, hk]
      · simp [alookup, hk, ih]

theorem alookup_aerase_none {k' k : String} {l : List (String × α)}
    (h : alookup k l = none) : alookup k (aerase k' l) = none := by
  by_cases hk : k' = k
  · subst hk; simp
  · rw [alookup_aerase_ne hk]; exact h

theorem alookup_aset_isSome {k' k : String} (v : α) {l : List (String × α)}
    (h : (alookup k l).isSome) : (alookup k (aset k' v l)).isSome := by
  by_cases hk : k' = k
  · subst hk; simp
  · rw [alookup_aset_ne hk]; exact h

theorem alookup_map_snd (f : α → β) (k : String) (l : List (String × α)) :
    alookup k (l.map (fun p => (p.1, f p.2))) = (alookup k l).map f := by
  induction l with
  | nil => simp [alookup]
  | cons p rest ih =>
    by_cases h : p.1 = k
    · simp [alookup, h]
    · simp [alookup, h, ih]

/-! Lemmas about `serviceToRecord`'s node-map construction. -/

theorem foldl_aset_isSome_mono (f : Node → NRec) (l : List Node) (k : String) :
    ∀ init : NodeMap, (alookup k init).isSome →
      (alookup k (l.foldl (fun ns x => aset x.id (f x) ns) init)).isSome := by
  induction l with
  | nil => intro init h; simpa using h
  | cons hd tl ih =>
    intro init h
    exact ih _ (alookup_aset_isSome _ h)

theorem foldl_aset_mem_isSome (f : Node → NRec) (l : List Node) :
    ∀ (init : NodeMap) (n : Node), n ∈ l →
      (alookup n.id (l.foldl (fun ns x => aset x.id (f x) ns) init)).isSome := by
  induction l with
  | nil => intro _ n hn; cases hn
  | cons hd tl ih =>
    intro init n hn
    rcases List.mem_cons.mp hn with h | h
    · subst h
      exact foldl_aset_isSome_mono f tl n.id _ (by simp)
    · exact ih _ n h

theorem serviceToRecord_mem_isSome (s : Service) (ttl now : Int) (n : Node) (hn : n ∈ s.nodes) :
    (alookup n.id (serviceToRecord s ttl now).nodes).isSome :=
  foldl_aset_mem_isSome (fun x => { node := x, ttl := ttl, lastSeen := now }) s.nodes [] n hn

/-! Lemmas about `Register`'s node loop (`addStep`). -/

theorem addStep_preserves_some {dom : String} {ttl now : Int} {st : NodeMap × Bool} {n : Node}
    {k : String} {v : NRec} (h : alookup k st.1 = some v) :
    alookup k ((addStep dom ttl now st n).1) = some v := by
  unfold addStep
  cases hp : (alookup n.id st.1).isSome with
  | true => simp [hp, h]
  | false =>
    have hne : n.id ≠ k := by
      intro he
      rw [he, h] at hp
      simp at hp
    simp only [hp, Bool.false_eq_true, if_false]
    rw [alookup_aset_ne hne]
    exact h

theorem addFold_preserves_some (dom : String) (ttl now : Int) (l : List Node) :
    ∀ (st : NodeMap × Bool) (k : String) (v : NRec), alookup k st.1 = some v →
      alookup k ((l.foldl (addStep dom ttl now) st).1) = some v := by
  induction l with
  | nil => intro st k v h; exact h
  | cons hd tl ih =>
    intro st k v h
    exact ih _ k v (addStep_preserves_some h)

theorem addFold_not_mem (dom : String) (ttl now : Int) (l : List Node) (k : String) :
    ∀ st : NodeMap × Bool, (∀ n ∈ l, n.id ≠ k) →
      alookup k ((l.foldl (addStep dom ttl now) st).1) = alookup k st.1 := by
  induction l with
  | nil => intro st _; rfl
  | cons hd tl ih =>
    intro st hne
    have h1 : alookup k ((addStep dom ttl now st hd).1) = alookup k st.1 := by
      unfold addStep
      cases hp : (alookup hd.id st.1).isSome with
      | true => simp [hp]
      | false =>
        simp only [hp, Bool.false_eq_true, if_false]
        exact alookup_aset_ne (hne hd (List.mem_cons_self hd tl)) _ _
    rw [List.foldl_cons, ih _ (fun n hn => hne n (List.mem_cons_of_mem hd hn)), h1]

theorem addFold_new (dom : String) (ttl now : Int) (l : List Node) :
    ∀ (st : NodeMap × Bool) (n : Node), (l.map Node.id).Nodup → n ∈ l →
      alookup n.id st.1 = none →
      alookup n.id ((l.foldl (addStep dom ttl now) st).1) = some (mkNRec n dom ttl now) := by
  induction l with
  | nil => intro _ n _ hn; cases hn
  | cons hd tl ih =>
    intro st n hnodup hn habs
    have hnodup' := hnodup
    rw [List.map_cons, List.nodup_cons] at hnodup'
    rcases List.mem_cons.mp hn with h | h
    · subst h
      have hp : ¬ (alookup n.id st.1).isSome := by simp [habs]
      have hstep : (addStep dom ttl now st n).1 = aset n.id (mkNRec n dom ttl now) st.1 := by
        unfold addStep; simp [hp]
      have hne : ∀ x ∈ tl, x.id ≠ n.id := by
        intro x hx he
        exact hnodup'.1 (he ▸ List.mem_map_of_mem Node.id hx)
      rw [List.foldl_cons, addFold_not_mem dom ttl now tl n.id _ hne, hstep]
      simp
    · have hne : hd.id ≠ n.id := by
        intro he
        exact hnodup'.1 (he ▸ List.mem_map_of_mem Node.id h)
      have habs' : alookup n.id ((addStep dom ttl now st hd).1) = none := by
        unfold addStep
        cases hp : (alookup hd.id st.1).isSome with
        | true => simp [hp, habs]
        | false =>
          simp only [hp, Bool.false_eq_true, if_false]
          rw [alookup_aset_ne hne]
          exact habs
      rw [List.foldl_cons]
      exact ih _ n hnodup'.2 h habs'

theorem addFold_flag_true (dom : String) (ttl now : Int) (l : List Node) :
    ∀ st : NodeMap × Bool, st.2 = true → (l.foldl (addStep dom ttl now) st).2 = true := by
  induction l with
  | nil => intro st h; exact h
  | cons hd tl ih =>
    intro st h
    apply ih
    unfold addStep
    by_cases hp : (alookup hd.id st.1).isSome
    · simpa [hp] using h
    · simp [hp]

theorem addFold_flag (dom : String) (ttl now : Int) (l : List Node) :
    ∀ ns : NodeMap, (l.foldl (addStep dom ttl now) (ns, false)).2
      = l.any (fun n => (alookup n.id ns).isNone) := by
  induction l with
  | nil => intro ns; rfl
  | cons hd tl ih =>
    intro ns
    rw [List.foldl_cons]
    by_cases hp : (alookup hd.id ns).isSome
    · have hstep : addStep dom ttl now (ns, false) hd = (ns, false) := by
        unfold addStep; simp [hp]
      rw [hstep, ih ns]
      simp [List.any_cons, Option.isNone_iff_eq_none]
      intro h
      rw [h] at hp
      simp at hp
    · have hstep : addStep dom ttl now (ns, false) hd
          = (aset hd.id (mkNRec hd dom ttl now) ns, true) := by
        unfold addStep; simp [hp]
      rw [hstep, addFold_flag_true dom ttl now tl _ rfl]
      simp only [List.any_cons, Bool.true_or, eq_comm]
      simp [Option.isNone_iff_eq_none, Option.not_isSome_iff_eq_none.mp hp]

theorem addFold_all_present (dom : String) (ttl now : Int) (l : List Node) :
    ∀ ns : NodeMap, (∀ n ∈ l, (alookup n.id ns).isSome) →
      l.foldl (addStep dom ttl now) (ns, false) = (ns, false) := by
  induction l with
  | nil => intro ns _; rfl
  | cons hd tl ih =>
    intro ns hall
    have hstep : addStep dom ttl now (ns, false) hd = (ns, false) := by
      unfold addStep; simp [hall hd (List.mem_cons_self hd tl)]
    rw [List.foldl_cons, hstep]
    exact ih ns (fun n hn => hall n (List.mem_cons_of_mem hd hn))

/-! Lemmas about `Register`'s refresh loop. -/

theorem refresh_not_mem (ttl now : Int) (l : List Node) (k : String) :
    ∀ ns : NodeMap, (∀ n ∈ l, n.id ≠ k) →
      alookup k (refreshNodes ttl now ns l) = alookup k ns := by
  induction l with
  | nil => intro ns _; rfl
  | cons hd tl ih =>
    intro ns hne
    unfold refreshNodes
    rw [List.foldl_cons]
    have htl := ih (match alookup hd.id ns with
      | some nr => aset hd.id { nr with ttl := ttl, lastSeen := now } ns
      | none => ns) (fun n hn => hne n (List.mem_cons_of_mem hd hn))
    unfold refreshNodes at htl
    rw [htl]
    cases h : alookup hd.id ns with
    | none => rfl
    | some nr => exact alookup_aset_ne (hne hd (List.mem_cons_self hd tl)) _ _

theorem refresh_mem (ttl now : Int) (l : List Node) :
    ∀ (ns : NodeMap) (n : Node) (v : NRec), (l.map Node.id).Nodup → n ∈ l →
      alookup n.id ns = some v →
      alookup n.id (refreshNodes ttl now ns l) = some { v with ttl := ttl, lastSeen := now } := by
  induction l with
  | nil => intro _ n _ _ hn; cases hn
  | cons hd tl ih =>
    intro ns n v hnodup hn hv
    have hnodup' := hnodup
    rw [List.map_cons, List.nodup_cons] at hnodup'
    unfold refreshNodes
    rw [List.foldl_cons]
    rcases List.mem_cons.mp hn with h | h
    · subst h
      rw [hv]
      have hne : ∀ x ∈ tl, x.id ≠ n.id := by
        intro x hx he
        exact hnodup'.1 (he ▸ List.mem_map_of_mem Node.id hx)
      have := refresh_not_mem ttl now tl n.id (aset n.id { v with ttl := ttl, lastSeen := now } ns) hne
      unfold refreshNodes at this
      rw [this]
      simp
    · have hne : hd.id ≠ n.id := by
        intro he
        exact hnodup'.1 (he ▸ List.mem_map_of_mem Node.id h)
      cases hhd : alookup hd.id ns with
      | none => exact ih ns n v hnodup'.2 h hv
      | some nr =>
        have hv' : alookup n.id (aset hd.id { nr with ttl := ttl, lastSeen := now } ns) = some v := by
          rw [alookup_aset_ne hne]; exact hv
        exact ih _ n v hnodup'.2 h hv'

/-! Lemmas about `Deregister`'s node loop. -/

theorem deregNodes_none (l : List Node) (k : String) :
    ∀ ns : NodeMap, alookup k ns = none → alookup k (deregNodes l ns) = none := by
  induction l with
  | nil => intro ns h; exact h
  | cons hd tl ih =>
    intro ns h
    unfold deregNodes
    rw [List.foldl_cons]
    exact ih (aerase hd.id ns) (alookup_aerase_none h)

theorem deregNodes_mem (l : List Node) :
    ∀ (ns : NodeMap) (n : Node), n ∈ l → alookup n.id (deregNodes l ns) = none := by
  induction l with
  | nil => intro _ n hn; cases hn
  | cons hd tl ih =>
    intro ns n hn
    rcases List.mem_cons.mp hn with h | h
    · subst h
      unfold deregNodes
      rw [List.foldl_cons]
      exact deregNodes_none tl n.id _ (alookup_aerase_self n.id ns)
    · unfold deregNodes
      rw [List.foldl_cons]
      exact ih _ n h

/-! Projection lemmas for the mutated service. -/

@[simp]
theorem setDomainMeta_name (s : Service) (dom : String) : (setDomainMeta s dom).name = s.name := rfl

@[simp]
theorem setDomainMeta_version (s : Service) (dom : String) :
    (setDomainMeta s dom).version = s.version := rfl

@[simp]
theorem setDomainMeta_nodes (s : Service) (dom : String) :
    (setDomainMeta s dom).nodes = s.nodes := rfl

@[simp]
theorem setDomainMeta_metadata (s : Service) (dom : String) :
    (setDomainMeta s dom).metadata = some (aset "domain" dom (s.metadata.getD [])) := rfl

@[simp]
theorem alookup_nil (k : String) : alookup k ([] : List (String × α)) = none := rfl

/-! Structural lemmas unfolding `register` and `deregister`. -/

theorem register_existing (m : Records) (s : Service) (dom : String) (ttl now : Int)
    (svcs : ServiceMap) (vers : VersionMap) (rec : Record)
    (hd : alookup dom m = some svcs)
    (hn : alookup s.name svcs = some vers)
    (hv : alookup s.version vers = some rec) :
    register m s dom ttl now =
      { store := aset dom (aset s.name (aset s.version
          { rec with nodes :=
              if (s.nodes.foldl (addStep dom ttl now) (rec.nodes, false)).2
              then (s.nodes.foldl (addStep dom ttl now) (rec.nodes, false)).1
              else refreshNodes ttl now (s.nodes.foldl (addStep dom ttl now) (rec.nodes, false)).1 s.nodes } vers) svcs) m
        service := setDomainMeta s dom
        events := if (s.nodes.foldl (addStep dom ttl now) (rec.nodes, false)).2
            then [{ action := "update", service := setDomainMeta s dom }] else []
        err := none } := by
  unfold register
  simp only [setDomainMeta_name, setDomainMeta_version, setDomainMeta_nodes, hd, hn, hv,
    Option.getD_some, Option.isNone_some, Bool.false_eq_true, if_false, Option.getD,
    List.nil_append]

theorem register_new_flag (s : Service) (dom : String) (ttl now : Int) :
    s.nodes.foldl (addStep dom ttl now) ((serviceToRecord (setDomainMeta s dom) ttl now).nodes, false)
      = ((serviceToRecord (setDomainMeta s dom) ttl now).nodes, false) := by
  apply addFold_all_present
  intro n hn
  exact serviceToRecord_mem_isSome (setDomainMeta s dom) ttl now n (by simpa using hn)

theorem register_events_eq (m : Records) (s : Service) (dom : String) (ttl now : Int) :
    (register m s dom ttl now).events =
      match lookupRecord m dom s.name s.version with
      | none => [{ action := "create", service := setDomainMeta s dom }]
      | some rec =>
        if s.nodes.any (fun n => (alookup n.id rec.nodes).isNone)
        then [{ action := "update", service := setDomainMeta s dom }]
        else [] := by
  cases hd : alookup dom m with
  | none =>
    unfold register
    simp only [lookupRecord, hd, Option.none_bind, setDomainMeta_name, setDomainMeta_version,
      setDomainMeta_nodes, Option.getD_none, Option.getD_some, alookup_nil, Option.isNone_none,
      if_true, alookup_aset_self]
    rw [register_new_flag s dom ttl now]
    simp
  | some svcs =>
    cases hn : alookup s.name svcs with
    | none =>
      unfold register
      simp only [lookupRecord, hd, hn, Option.some_bind, Option.none_bind, setDomainMeta_name,
        setDomainMeta_version, setDomainMeta_nodes, Option.getD_some, alookup_nil,
        Option.isNone_none, if_true, alookup_aset_self]
      rw [register_new_flag s dom ttl now]
      simp
    | some vers =>
      cases hv : alookup s.version vers with
      | none =>
        unfold register
        simp only [lookupRecord, hd, hn, hv, Option.some_bind, setDomainMeta_name,
          setDomainMeta_version, setDomainMeta_nodes, Option.getD_some, Option.isNone_some,
          Option.isNone_none, Bool.false_eq_true, if_false, if_true, alookup_aset_self]
        rw [register_new_flag s dom ttl now]
        simp
      | some rec =>
        rw [register_existing m s dom ttl now svcs vers rec hd hn hv]
        simp only [lookupRecord, hd, hn, hv, Option.some_bind]
        rw [addFold_flag dom ttl now s.nodes rec.nodes]

theorem deregister_existing (m : Records) (s : Service) (dom : String)
    (svcs : ServiceMap) (vers : VersionMap) (ver : Record)
    (hd : alookup dom m = some svcs)
    (hn : alookup s.name svcs = some vers)
    (hv : alookup s.version vers = some ver) :
    deregister m s dom =
      if (deregNodes s.nodes ver.nodes).length > 0 then
        { store := aset dom (aset s.name (aset s.version
            { ver with nodes := deregNodes s.nodes ver.nodes } vers) svcs) m
          service := setDomainMeta s dom
          events := [{ action := "update", service := setDomainMeta s dom }]
          err := none }
      else if vers.length = 1 then
        { store := aset dom (aerase s.name svcs) m
          service := setDomainMeta s dom
          events := [{ action := "delete", service := setDomainMeta s dom }]
          err := none }
      else
        { store := aset dom (aset s.name (aerase s.version vers) svcs) m
          service := setDomainMeta s dom
          events := [{ action := "delete", service := setDomainMeta s dom }]
          err := none } := by
  unfold deregister
  simp only [setDomainMeta_name, setDomainMeta_version, setDomainMeta_nodes, hd, hn, hv]

theorem lookupServiceIn_cases (m : Records) (name d : String) :
    lookupServiceIn m name d = Except.error RegError.notFound
    ∨ ∃ l, lookupServiceIn m name d = Except.ok l := by
  unfold lookupServiceIn
  cases alookup d m with
  | none => exact Or.inl rfl
  | some svcs =>
    dsimp only
    cases alookup name svcs with
    | none => exact Or.inl rfl
    | some vers =>
      dsimp only
      by_cases h : vers.length = 0
      · simp [h]
      · simp [h]

theorem wildcardLoop_ok (f : String → Except RegError (List Service))
    (hf : ∀ d, f d = Except.error RegError.notFound ∨ ∃ l, f d = Except.ok l) :
    ∀ (ds : List String) (acc : List Service),
      wildcardLoop f ds acc = Except.ok (acc ++ gatherOk f ds) := by
  intro ds
  induction ds with
  | nil => intro acc; simp [wildcardLoop, gatherOk]
  | cons d rest ih =>
    intro acc
    rcases hf d with h | ⟨l, h⟩
    · unfold wildcardLoop gatherOk
      rw [h]
      simpa using ih acc
    · unfold wildcardLoop gatherOk
      rw [h]
      dsimp only
      rw [ih (acc ++ l)]
      simp

/-- Claim C8: a wildcard-domain Lookup queries every known domain, skips a
per-domain NotFound, aborts and propagates any other per-domain error,
concatenates the non-empty per-domain results, and returns NotFound exactly
when every domain yielded nothing.  (The hypothesis excludes a store whose
domain key is literally the wildcard sentinel, where the source recursion
would never terminate.) -/
theorem claim_C8 (m : Records) (name : String)
    (_hwild : wildcardDomain ∉ m.map Prod.fst) :
    (lookupService m name wildcardDomain
      = if gatherLookup m name = [] then Except.error RegError.notFound
        else Except.ok (gatherLookup m name))
    ∧ (∀ (f : String → Except RegError (List Service)) (d : String) (rest : List String)
        (acc : List Service) (msg : String),
        f d = Except.error (RegError.other msg) →
        wildcardLoop f (d :: rest) acc = Except.error (RegError.other msg))
    ∧ (∀ (f : String → Except RegError (List Service)) (d : String) (rest : List String)
        (acc : List Service),
        f d = Except.error RegError.notFound →
        wildcardLoop f (d :: rest) acc = wildcardLoop f rest acc) := by
  refine ⟨?_, ?_, ?_⟩
  · unfold lookupService
    rw [if_pos rfl]
    rw [wildcardLoop_ok _ (fun d => lookupServiceIn_cases m name d) (m.map Prod.fst) []]
    simp only [List.nil_append]
    by_cases hg : gatherLookup m name = []
    · rw [if_pos hg]
      unfold gatherLookup at hg
      simp [hg]
    · rw [if_neg hg]
      unfold gatherLookup at hg
      have : (gatherOk (fun d => lookupServiceIn m name d) (m.map Prod.fst)).length ≠ 0 := by
        simpa [List.length_eq_zero] using hg
      simp [this, gatherLookup]
  · intro f d rest acc msg hfd
    simp only [wildcardLoop]
    rw [hfd]
  · intro f d rest acc hfd
    simp only [wildcardLoop]
    rw [hfd]

/-- Witness for C8 at a two-domain store (one hit, one NotFound skipped) and
for the abort/skip clauses at concrete per-domain functions. -/
theorem claim_C8_witness :
    (lookupService c8m "svc" wildcardDomain
      = if gatherLookup c8m "svc" = [] then Except.error RegError.notFound
        else Except.ok (gatherLookup c8m "svc"))
    ∧ wildcardLoop c8boom ["dX"] [] = Except.error (RegError.other "boom")
    ∧ wildcardLoop c8miss ["dX"] [] = wildcardLoop c8miss [] [] := by
  have h := claim_C8 c8m "svc" (by decide)
  exact ⟨h.1, h.2.1 c8boom "dX" [] [] "boom" rfl, h.2.2 c8miss "dX" [] [] rfl⟩

/-- Claim C2 (amended): only the nodes that Register adds to an
already-existing (domain, name, version) entry are stored with a copied
metadata map in which "domain" is force-set to the registration domain; the
brand-new-service creation path stores the request nodes as-is, so the
store-wide invariant of the original claim does not hold. -/
theorem claim_C2_amended (m : Records) (s : Service) (dom : String) (ttl now : Int)
    (svcs : ServiceMap) (vers : VersionMap) (rec : Record) (n : Node)
    (hd : alookup dom m = some svcs)
    (hn : alookup s.name svcs = some vers)
    (hv : alookup s.version vers = some rec)
    (hnodup : (s.nodes.map Node.id).Nodup)
    (hmem : n ∈ s.nodes)
    (habs : alookup n.id rec.nodes = none) :
    (lookupRecord (register m s dom ttl now).store dom s.name s.version).map
        (fun r => alookup n.id r.nodes) = some (some (mkNRec n dom ttl now))
    ∧ alookup "domain" (mkNRec n dom ttl now).node.metadata = some dom := by
  constructor
  · rw [register_existing m s dom ttl now svcs vers rec hd hn hv]
    simp only [lookupRecord, alookup_aset_self, Option.some_bind, Option.map_some']
    have hflag : (s.nodes.foldl (addStep dom ttl now) (rec.nodes, false)).2 = true := by
      rw [addFold_flag]
      exact List.any_eq_true.mpr ⟨n, hmem, by simp [habs]⟩
    rw [hflag]
    simp only [if_true]
    rw [addFold_new dom ttl now s.nodes (rec.nodes, false) n hnodup hmem habs]
  · simp [mkNRec]

/-- Claim C3 (amended): for Register on an existing entry, a new node id is
added with the call's TTL and timestamp; an already-present node is refreshed
to the call's TTL and timestamp only when the call adds no new node id at all,
and is left untouched in a mixed batch that also adds new node ids. -/
theorem claim_C3_amended (m : Records) (s : Service) (dom : String) (ttl now : Int)
    (svcs : ServiceMap) (vers : VersionMap) (rec : Record)
    (hd : alookup dom m = some svcs)
    (hn : alookup s.name svcs = some vers)
    (hv : alookup s.version vers = some rec)
    (hnodup : (s.nodes.map Node.id).Nodup) :
    (∀ n ∈ s.nodes, alookup n.id rec.nodes = none →
      (lookupRecord (register m s dom ttl now).store dom s.name s.version).map
        (fun r => alookup n.id r.nodes) = some (some (mkNRec n dom ttl now)))
    ∧ (s.nodes.any (fun n => (alookup n.id rec.nodes).isNone) = true →
      ∀ n ∈ s.nodes, ∀ v, alookup n.id rec.nodes = some v →
        (lookupRecord (register m s dom ttl now).store dom s.name s.version).map
          (fun r => alookup n.id r.nodes) = some (some v))
    ∧ (s.nodes.any (fun n => (alookup n.id rec.nodes).isNone) = false →
      ∀ n ∈ s.nodes, ∀ v, alookup n.id rec.nodes = some v →
        (lookupRecord (register m s dom ttl now).store dom s.name s.version).map
          (fun r => alookup n.id r.nodes)
          = some (some { v with ttl := ttl, lastSeen := now })) := by
  rw [register_existing m s dom ttl now svcs vers rec hd hn hv]
  simp only [lookupRecord, alookup_aset_self, Option.some_bind, Option.map_some']
  refine ⟨?_, ?_, ?_⟩
  · intro n hmem habs
    have hflag : (s.nodes.foldl (addStep dom ttl now) (rec.nodes, false)).2 = true := by
      rw [addFold_flag]
      exact List.any_eq_true.mpr ⟨n, hmem, by simp [habs]⟩
    rw [hflag]
    simp only [if_true]
    rw [addFold_new dom ttl now s.nodes (rec.nodes, false) n hnodup hmem habs]
  · intro hany n hmem v hv'
    have hflag : (s.nodes.foldl (addStep dom ttl now) (rec.nodes, false)).2 = true := by
      rw [addFold_flag]; exact hany
    rw [hflag]
    simp only [if_true]
    rw [addFold_preserves_some dom ttl now s.nodes (rec.nodes, false) n.id v hv']
  · intro hany n hmem v hv'
    have hall : ∀ x ∈ s.nodes, (alookup x.id rec.nodes).isSome := by
      intro x hx
      by_contra hc
      have : s.nodes.any (fun n => (alookup n.id rec.nodes).isNone) = true :=
        List.any_eq_true.mpr ⟨x, hx, by simpa [Option.isNone_iff_eq_none,
          Option.not_isSome_iff_eq_none] using hc⟩
      rw [this] at hany
      cases hany
    have hst := addFold_all_present dom ttl now s.nodes rec.nodes hall
    rw [hst]
    simp only [Bool.false_eq_true, if_false]
    rw [refresh_mem ttl now s.nodes rec.nodes n v hnodup hmem hv']

/-- Claim C5: for Deregister on an existing (domain, name, version) entry,
every listed node id is removed from the version's node map; a still non-empty
map keeps the entry and emits one update event; an emptied map removes the
whole service when this was its only version, else just this version, emitting
one delete event either way. -/
theorem claim_C5 (m : Records) (s : Service) (dom : String)
    (svcs : ServiceMap) (vers : VersionMap) (ver : Record)
    (hd : alookup dom m = some svcs)
    (hn : alookup s.name svcs = some vers)
    (hv : alookup s.version vers = some ver) :
    (∀ n ∈ s.nodes, alookup n.id (deregNodes s.nodes ver.nodes) = none)
    ∧ ((deregNodes s.nodes ver.nodes).length > 0 →
        (deregister m s dom).events = [{ action := "update", service := setDomainMeta s dom }]
        ∧ lookupRecord (deregister m s dom).store dom s.name s.version
            = some { ver with nodes := deregNodes s.nodes ver.nodes })
    ∧ ((deregNodes s.nodes ver.nodes).length = 0 → vers.length = 1 →
        (deregister m s dom).events = [{ action := "delete", service := setDomainMeta s dom }]
        ∧ alookup s.name ((alookup dom (deregister m s dom).store).getD []) = none)
    ∧ ((deregNodes s.nodes ver.nodes).length = 0 → vers.length ≠ 1 →
        (deregister m s dom).events = [{ action := "delete", service := setDomainMeta s dom }]
        ∧ lookupRecord (deregister m s dom).store dom s.name s.version = none
        ∧ (alookup s.name ((alookup dom (deregister m s dom).store).getD [])).isSome) := by
  rw [deregister_existing m s dom svcs vers ver hd hn hv]
  refine ⟨fun n hn' => deregNodes_mem s.nodes ver.nodes n hn', ?_, ?_, ?_⟩
  · intro hlen
    rw [if_pos hlen]
    refine ⟨rfl, ?_⟩
    simp only [lookupRecord, alookup_aset_self, Option.some_bind]
  · intro hlen h1
    rw [if_neg (by omega), if_pos h1]
    refine ⟨rfl, ?_⟩
    simp only [alookup_aset_self, Option.getD_some, alookup_aerase_self]
  · intro hlen h1
    rw [if_neg (by omega), if_neg h1]
    refine ⟨rfl, ?_, ?_⟩
    · simp only [lookupRecord, alookup_aset_self, Option.some_bind, alookup_aerase_self]
    · simp only [alookup_aset_self, Option.getD_some, Option.isSome_some]

/-- Claim C6: a Deregister naming an unknown domain, service name, or version
returns success (nil error), emits nothing, and leaves the store unchanged. -/
theorem claim_C6 (m : Records) (s : Service) (dom : String) :
    (alookup dom m = none →
      deregister m s dom
        = { store := m, service := setDomainMeta s dom, events := [], err := none })
    ∧ (∀ svcs, alookup dom m = some svcs → alookup s.name svcs = none →
      deregister m s dom
        = { store := m, service := setDomainMeta s dom, events := [], err := none })
    ∧ (∀ svcs vers, alookup dom m = some svcs → alookup s.name svcs = some vers →
      alookup s.version vers = none →
      deregister m s dom
        = { store := m, service := setDomainMeta s dom, events := [], err := none }) := by
  refine ⟨?_, ?_, ?_⟩
  · intro hd
    unfold deregister
    rw [hd]
  · intro svcs hd hn
    unfold deregister
    rw [hd]
    dsimp only
    rw [setDomainMeta_name, hn]
  · intro svcs vers hd hn hv
    unfold deregister
    rw [hd]
    dsimp only
    rw [setDomainMeta_name, hn]
    dsimp only
    rw [setDomainMeta_version, hv]

/-- Claim C7: one TTL-reaper tick emits no events, keeps every
domain/service/version entry in place (even if its node map empties), and
deletes exactly the nodes whose TTL is non-zero and whose elapsed time since
last-seen exceeds it; a node with TTL = 0 is never deleted. -/
theorem claim_C7 (now : Int) (m : Records) (dom name ver : String) :
    (ttlPruneTick now m).2 = []
    ∧ lookupRecord (ttlPruneTick now m).1 dom name ver
        = (lookupRecord m dom name ver).map (pruneRecord now)
    ∧ (∀ (r : Record) (p : String × NRec),
        p ∈ (pruneRecord now r).nodes ↔ p ∈ r.nodes ∧ nodeExpired now p.2 = false)
    ∧ (∀ (nd : Node) (ls : Int), nodeExpired now { node := nd, ttl := 0, lastSeen := ls } = false) := by
  refine ⟨rfl, ?_, ?_, ?_⟩
  · unfold ttlPruneTick lookupRecord
    rw [alookup_map_snd]
    cases hdm : alookup dom m with
    | none => simp
    | some svcs =>
      simp only [Option.map_some', Option.some_bind]
      rw [alookup_map_snd]
      cases hns : alookup name svcs with
      | none => simp
      | some verss =>
        simp only [Option.map_some', Option.some_bind]
        rw [alookup_map_snd]
  · intro r p
    simp [pruneRecord, List.mem_filter]
  · intro nd ls
    simp [nodeExpired]

/-- Claim C10: every Register and Deregister call mutates the caller's
service argument, allocating its metadata map if nil and setting its "domain"
key to the call's effective domain — on every path, including the Deregister
early returns that change nothing else. -/
theorem claim_C10 (m : Records) (s : Service) (dom : String) (ttl now : Int) :
    ((register m s dom ttl now).service.metadata
        = some (aset "domain" dom (s.metadata.getD []))
      ∧ alookup "domain" (((register m s dom ttl now).service.metadata).getD []) = some dom)
    ∧ ((deregister m s dom).service.metadata
        = some (aset "domain" dom (s.metadata.getD []))
      ∧ alookup "domain" (((deregister m s dom).service.metadata).getD []) = some dom) := by
  have hreg : (register m s dom ttl now).service = setDomainMeta s dom := rfl
  have hdereg : (deregister m s dom).service = setDomainMeta s dom := by
    unfold deregister
    cases alookup dom m with
    | none => rfl
    | some svcs =>
      dsimp only
      cases alookup (setDomainMeta s dom).name svcs with
      | none => rfl
      | some vers =>
        dsimp only
        cases alookup (setDomainMeta s dom).version vers with
        | none => rfl
        | some ver =>
          dsimp only
          split
          · rfl
          · split <;> rfl
  rw [hreg, hdereg]
  simp [setDomainMeta]

/-- Claim C9: Watcher.Stop is idempotent — a second Stop returns the same
already-stopped watcher without re-closing anything — and once stopped, a Next
call with no deliverable result fails with the watcher-stopped error. -/
theorem claim_C9 (w : WatcherState) :
    stop (stop w) = stop w
    ∧ (stop w).stopped = true
    ∧ next (stop w) [] = NextOutcome.stoppedErr := by
  by_cases h : w.stopped
  · simp [stop, next, h]
  · simp [stop, next, h]

/-- Claim C1 evaluated at the failing input: a non-wildcard List over domain
"dom1" returns the stored service with metadata "domain" equal to the service
name "svcA" — not the queried domain — because the source's List loop passes
the services-map key (the service name) to recordToService as the domain. -/
theorem claim_C1_eval :
    listServices c1store "dom1" = Except.ok [recordToService c1rec "svcA"]
    ∧ alookup "domain" (((recordToService c1rec "svcA").metadata).getD []) = some "svcA"
    ∧ alookup "domain" (((recordToService c1rec "svcA").metadata).getD []) ≠ some "dom1" := by
  decide

/-- Counterexample to C2 as stated: registering a brand-new service stores
its node with the request metadata unchanged — no "domain" key is set. -/
theorem claim_C2_counterexample :
    (lookupRecord (register [] c2svc "d1" 5 100).store "d1" "svc" "1").map
      (fun r => (alookup "n1" r.nodes).map (fun nr => alookup "domain" nr.node.metadata))
    = some (some none) := by decide

/-- Counterexample to C4 as stated: a brand-new registration adds node "n1"
to the store (absent before, present after) yet emits only the create event
and no update event. -/
theorem claim_C4_counterexample :
    (register [] c4svc "d1" 5 100).events.map Event.action = ["create"]
    ∧ lookupRecord [] "d1" "svc" "1" = none
    ∧ (lookupRecord (register [] c4svc "d1" 5 100).store "d1" "svc" "1").map
        (fun r => (alookup "n1" r.nodes).isSome) = some true
    ∧ ((register [] c4svc "d1" 5 100).events.map Event.action).contains "update" = false := by
  decide

/-- Counterexample to C3 as stated: in a mixed batch (existing node "a",
new node "b") registered with TTL 7 at time 20, the already-present node "a"
keeps its old TTL 5 and last-seen 10 instead of being refreshed. -/
theorem claim_C3_counterexample :
    (lookupRecord (register c3m c3svc "d1" 7 20).store "d1" "svc" "1").map
      (fun r => alookup "a" r.nodes) = some (some c3old)
    ∧ c3old.ttl = 5 ∧ c3old.lastSeen = 10 ∧ ((5 : Int) ≠ 7) ∧ ((10 : Int) ≠ 20) := by
  decide

/-- Claim C4 (amended): Register emits exactly one create event (and nothing
else) when the (domain, name, version) entry is brand-new — its nodes are
installed together with the new record, so none count as newly added; on an
existing entry it emits exactly one update event when some listed node id is
new, and no event when all are already present. -/
theorem claim_C4 (m : Records) (s : Service) (dom : String) (ttl now : Int) :
    (register m s dom ttl now).events =
      match lookupRecord m dom s.name s.version with
      | none => [{ action := "create", service := setDomainMeta s dom }]
      | some rec =>
        if s.nodes.any (fun n => (alookup n.id rec.nodes).isNone)
        then [{ action := "update", service := setDomainMeta s dom }]
        else [] :=
  register_events_eq m s dom ttl now

/-- Witness for C2 (amended): adding node "n1" to an existing entry stores
it with copied metadata carrying "domain" = "d1". -/
theorem claim_C2_witness :
    (lookupRecord (register c2m c2svc "d1" 9 50).store "d1" "svc" "1").map
        (fun r => alookup "n1" r.nodes)
      = some (some (mkNRec { id := "n1", address := "h:1", metadata := [("k", "v")] } "d1" 9 50))
    ∧ alookup "domain"
        (mkNRec { id := "n1", address := "h:1", metadata := [("k", "v")] } "d1" 9 50).node.metadata
      = some "d1" :=
  claim_C2_amended c2m c2svc "d1" 9 50 [("svc", [("1", c2rec)])] [("1", c2rec)] c2rec
    { id := "n1", address := "h:1", metadata := [("k", "v")] }
    rfl rfl rfl (by decide) (by decide) (by decide)

/-- Witness for C3 (amended): the mixed batch adds "b" fresh and leaves "a"
untouched; the pure-refresh call updates "a" to the new TTL and timestamp. -/
theorem claim_C3_witness :
    (lookupRecord (register c3m c3svc "d1" 7 20).store "d1" "svc" "1").map
      (fun r => alookup "b" r.nodes)
      = some (some (mkNRec { id := "b", address := "h:b", metadata := [] } "d1" 7 20))
    ∧ (lookupRecord (register c3m c3svc "d1" 7 20).store "d1" "svc" "1").map
      (fun r => alookup "a" r.nodes) = some (some c3old)
    ∧ (lookupRecord (register c3m c3svcRefresh "d1" 9 30).store "d1" "svc" "1").map
      (fun r => alookup "a" r.nodes) = some (some { c3old with ttl := 9, lastSeen := 30 }) := by
  have h := claim_C3_amended c3m c3svc "d1" 7 20
    [("svc", [("1", c3rec)])] [("1", c3rec)] c3rec rfl rfl rfl (by decide)
  have h2 := claim_C3_amended c3m c3svcRefresh "d1" 9 30
    [("svc", [("1", c3rec)])] [("1", c3rec)] c3rec rfl rfl rfl (by decide)
  refine ⟨?_, ?_, ?_⟩
  · exact h.1 { id := "b", address := "h:b", metadata := [] } (by decide) (by decide)
  · exact h.2.1 (by decide) { id := "a", address := "h:a", metadata := [] } (by decide) c3old (by decide)
  · exact h2.2.2 (by decide) { id := "a", address := "h:a", metadata := [] } (by decide) c3old (by decide)

/-- Witness for C5 on the update path: removing one of two nodes keeps the
entry and emits one update event. -/
theorem claim_C5_witness :
    alookup "a" (deregNodes c5svc.nodes c5rec.nodes) = none
    ∧ (deregister c5m c5svc "d1").events
        = [{ action := "update", service := setDomainMeta c5svc "d1" }] := by
  have h := claim_C5 c5m c5svc "d1" [("svc", [("1", c5rec)])] [("1", c5rec)] c5rec rfl rfl rfl
  exact ⟨h.1 { id := "a", address := "h:a", metadata := [] } (by decide), (h.2.1 (by decide)).1⟩

/-- Witness for C6 on all three miss paths: unknown version, unknown service
name, unknown domain. -/
theorem claim_C6_witness :
    deregister c6m c6svcBadVersion "d1"
      = { store := c6m, service := setDomainMeta c6svcBadVersion "d1", events := [], err := none }
    ∧ deregister c6m c6svcBadName "d1"
      = { store := c6m, service := setDomainMeta c6svcBadName "d1", events := [], err := none }
    ∧ deregister c6m c6svcBadVersion "nodom"
      = { store := c6m, service := setDomainMeta c6svcBadVersion "nodom", events := [], err := none } := by
  refine ⟨?_, ?_, ?_⟩
  · exact (claim_C6 c6m c6svcBadVersion "d1").2.2
      [("svc", [("1", c3rec)])] [("1", c3rec)] rfl rfl (by decide)
  · exact (claim_C6 c6m c6svcBadName "d1").2.1 [("svc", [("1", c3rec)])] rfl (by decide)
  · exact (claim_C6 c6m c6svcBadVersion "nodom").1 (by decide)

end MemoryRegister
